import Mathlib

/-!
Shallow embedding of the `ghciwatch` session supervisor (`src/ghci/mod.rs`):
the reload-decision engine, the reload/restart/finish-compilation
orchestration, module addition, the prompt sentinel, and CLI option
extraction.  External collaborators (glob matchers, the Haskell
source-file predicate, path normalization, REPL output) appear as
abstract inputs, following the contracts the specification gives them.
-/

namespace Ghciwatch

/-- A normalized path (spec §3): equality is by the absolute form, display
uses the relative form.  `ext` and `fileName` model `Utf8Path::extension`
and `Utf8Path::file_name`, the two path queries `get_reload_actions` makes. -/
structure NormalPath where
  abs : String
  rel : String
  ext : Option String
  fileName : Option String
deriving DecidableEq, Repr

/-- A debounced file event (`crate::event_filter::FileEvent`): either a
modification (creation is folded into modification upstream) or a removal. -/
inductive FileEvent
  | modify (path : NormalPath)
  | remove (path : NormalPath)
deriving DecidableEq, Repr

/-- The path carried by an event (`FileEvent::as_path`). -/
def FileEvent.as_path : FileEvent → NormalPath
  | .modify p => p
  | .remove p => p

/-- Does the event match `FileEvent::Remove(_)`? -/
def FileEvent.is_remove : FileEvent → Bool
  | .remove _ => true
  | .modify _ => false

/-- Does the event match `FileEvent::Modify(_)`? -/
def FileEvent.is_modify : FileEvent → Bool
  | .modify _ => true
  | .remove _ => false

/-- Modelled from the spec: the outcome of `GlobMatcher::matched` for one
path, one of `{Ignore, Whitelist, None}` (spec §4.6); the glob-compilation
collaborator itself (`crate::ignore::GlobMatcher`) is not under `src/`. -/
inductive GlobMatch
  | ignore
  | whitelist
  | noMatch
deriving DecidableEq, Repr

/-- Is the match an ignore match? -/
def GlobMatch.is_ignore : GlobMatch → Bool
  | .ignore => true
  | _ => false

/-- Is the match a whitelist match? -/
def GlobMatch.is_whitelist : GlobMatch → Bool
  | .whitelist => true
  | _ => false

/-- Modelled from the spec: the session's target set (`parse::ModuleSet`,
not under `src/`), keyed by absolute path — "membership is idempotent on
absolute path" (spec §3). -/
structure ModuleSet where
  paths : List String
deriving DecidableEq, Repr

/-- Membership test by absolute path (`ModuleSet::contains_source_path`). -/
def ModuleSet.contains_source_path (s : ModuleSet) (abs : String) : Bool :=
  s.paths.contains abs

/-- Insertion keyed by absolute path (`ModuleSet::insert_source_path`; the
`TargetKind` tag does not affect membership and is omitted). -/
def ModuleSet.insert_source_path (s : ModuleSet) (abs : String) : ModuleSet :=
  if s.paths.contains abs then s else ⟨s.paths ++ [abs]⟩

/-- The session data `get_reload_actions` reads: the two compiled glob
matchers from `self.opts`, the `is_haskell_source_file` extension predicate,
`self.relative_path` (CWD normalization via `search_paths.make_relative`),
and the current target set `self.targets`.  The function-valued fields are
abstract inputs standing for external collaborators (spec §4.6 inputs). -/
structure ReloadConfig where
  restartGlobs : NormalPath → GlobMatch
  reloadGlobs : NormalPath → GlobMatch
  isHaskellSourceFile : NormalPath → Bool
  relativize : NormalPath → NormalPath
  targets : ModuleSet

/-- The CWD-normalized path of an event (`let path = self.relative_path(event.as_path())?`). -/
def normalized (cfg : ReloadConfig) (event : FileEvent) : NormalPath :=
  cfg.relativize event.as_path

/-- Which of the three action vectors an event's path is pushed to, if any. -/
inductive ReloadAction
  | restart
  | reload
  | add
deriving DecidableEq, Repr

/-- The restart condition of the loop body of `get_reload_actions`
(mod.rs lines 398–419): not glob-ignored and (a `.cabal` extension, a
`.ghci` file name, or a restart-glob whitelist match), or a removal of a
targeted Haskell source file. -/
def wants_restart (cfg : ReloadConfig) (event : FileEvent) : Bool :=
  (!(cfg.restartGlobs (normalized cfg event)).is_ignore
      && (((normalized cfg event).ext.map fun ext => ext == "cabal").getD false
          || ((normalized cfg event).fileName.map fun name => name == ".ghci").getD false
          || (cfg.restartGlobs (normalized cfg event)).is_whitelist))
    || (event.is_remove
        && cfg.isHaskellSourceFile (normalized cfg event)
        && cfg.targets.contains_source_path (normalized cfg event).abs)

/-- The loop body of `get_reload_actions` (mod.rs lines 382–443): which
vector, if any, the event's normalized path is pushed to. -/
def classifyEvent (cfg : ReloadConfig) (event : FileEvent) : Option ReloadAction :=
  if wants_restart cfg event then
    some ReloadAction.restart
  else if (cfg.reloadGlobs (normalized cfg event)).is_whitelist then
    some ReloadAction.reload
  else if !(cfg.reloadGlobs (normalized cfg event)).is_ignore
      && event.is_modify
      && cfg.isHaskellSourceFile (normalized cfg event) then
    if cfg.targets.contains_source_path (normalized cfg event).abs then
      some ReloadAction.reload
    else
      some ReloadAction.add
  else
    none

/-- The three disjoint action vectors (`ReloadActions`, mod.rs lines 846–854). -/
structure ReloadActions where
  needs_restart : List NormalPath
  needs_reload : List NormalPath
  needs_add : List NormalPath
deriving DecidableEq, Repr

/-- The accumulation loop of `Ghci::get_reload_actions` (mod.rs lines
371–451): events are taken in order (the `BTreeSet` is modelled as its
sorted element list) and each event's normalized path is pushed to at most
one of the three vectors. -/
def get_reload_actions (cfg : ReloadConfig) : List FileEvent → ReloadActions
  | [] => { needs_restart := [], needs_reload := [], needs_add := [] }
  | event :: rest =>
    let acc := get_reload_actions cfg rest
    match classifyEvent cfg event with
    | some ReloadAction.restart =>
      { acc with needs_restart := normalized cfg event :: acc.needs_restart }
    | some ReloadAction.reload =>
      { acc with needs_reload := normalized cfg event :: acc.needs_reload }
    | some ReloadAction.add =>
      { acc with needs_add := normalized cfg event :: acc.needs_add }
    | none => acc

/-- Do any modules need to be added or reloaded? (`ReloadActions::needs_add_or_reload`) -/
def ReloadActions.needsAddOrReload (a : ReloadActions) : Bool :=
  !a.needs_add.isEmpty || !a.needs_reload.isEmpty

/-- Is a session restart needed? (`ReloadActions::needs_restart`) -/
def ReloadActions.needsRestart (a : ReloadActions) : Bool :=
  !a.needs_restart.isEmpty

/-- How a session responds to a reload event (`GhciReloadKind`). -/
inductive GhciReloadKind
  | none
  | reload
  | restart
deriving DecidableEq, Repr

/-- The kind of reload to perform (`ReloadActions::kind`, mod.rs lines 868–876). -/
def ReloadActions.kind (a : ReloadActions) : GhciReloadKind :=
  if a.needsRestart then GhciReloadKind.restart
  else if a.needsAddOrReload then GhciReloadKind.reload
  else GhciReloadKind.none

/-- The claim's restart clause, written from the specification's words
(spec §4.6): the restart-glob match is not ignore and the extension is
`cabal`, the file name is `.ghci`, or the restart glob whitelists the
path; or the event is a removal of a Haskell source file in the target
set, even if globs ignore it. -/
def restartCondition (cfg : ReloadConfig) (event : FileEvent) : Prop :=
  ((cfg.restartGlobs (normalized cfg event)).is_ignore = false ∧
      ((normalized cfg event).ext = some "cabal" ∨
        (normalized cfg event).fileName = some ".ghci" ∨
        (cfg.restartGlobs (normalized cfg event)).is_whitelist = true)) ∨
  (event.is_remove = true ∧
    cfg.isHaskellSourceFile (normalized cfg event) = true ∧
    cfg.targets.contains_source_path (normalized cfg event).abs = true)

/-- The claim's reload clause, written from the specification's words: the
reload glob whitelists the path, or the reload glob does not ignore it and
the event is a modification of a Haskell source file in the target set. -/
def reloadCondition (cfg : ReloadConfig) (event : FileEvent) : Prop :=
  (cfg.reloadGlobs (normalized cfg event)).is_whitelist = true ∨
  ((cfg.reloadGlobs (normalized cfg event)).is_ignore = false ∧
    event.is_modify = true ∧
    cfg.isHaskellSourceFile (normalized cfg event) = true ∧
    cfg.targets.contains_source_path (normalized cfg event).abs = true)

/-- The claim's add clause, written from the specification's words: the
reload glob neither whitelists nor ignores the path, and the event is a
modification of a Haskell source file outside the target set. -/
def addCondition (cfg : ReloadConfig) (event : FileEvent) : Prop :=
  (cfg.reloadGlobs (normalized cfg event)).is_whitelist = false ∧
  (cfg.reloadGlobs (normalized cfg event)).is_ignore = false ∧
  event.is_modify = true ∧
  cfg.isHaskellSourceFile (normalized cfg event) = true ∧
  cfg.targets.contains_source_path (normalized cfg event).abs = false

theorem map_beq_getD (o : Option String) (s : String) :
    ((o.map fun x => x == s).getD false) = true ↔ o = some s := by
  cases o <;> simp

theorem wants_restart_iff (cfg : ReloadConfig) (event : FileEvent) :
    wants_restart cfg event = true ↔ restartCondition cfg event := by
  unfold wants_restart restartCondition
  simp only [Bool.or_eq_true, Bool.and_eq_true, Bool.not_eq_true', map_beq_getD]
  tauto

/-- C1: for every file event, `get_reload_actions` classifies its
CWD-normalized path by the spec's precedence: restart when
`restartCondition` holds; otherwise reload when `reloadCondition` holds;
otherwise add when `addCondition` holds; otherwise the event is discarded. -/
theorem reload_classification_precedence (cfg : ReloadConfig) (event : FileEvent) :
    (classifyEvent cfg event = some ReloadAction.restart ↔ restartCondition cfg event) ∧
    (classifyEvent cfg event = some ReloadAction.reload ↔
      ¬ restartCondition cfg event ∧ reloadCondition cfg event) ∧
    (classifyEvent cfg event = some ReloadAction.add ↔
      ¬ restartCondition cfg event ∧ addCondition cfg event) ∧
    (classifyEvent cfg event = none ↔
      ¬ restartCondition cfg event ∧ ¬ reloadCondition cfg event ∧
        ¬ addCondition cfg event) := by
  have hwr := wants_restart_iff cfg event
  cases hw : wants_restart cfg event with
  | true =>
    have hrc : restartCondition cfg event := hwr.mp hw
    simp [classifyEvent, hw, hrc]
  | false =>
    have hrc : ¬ restartCondition cfg event := by
      intro h
      have hcontra := hwr.mpr h
      rw [hw] at hcontra
      exact Bool.false_ne_true hcontra
    simp only [classifyEvent, hw, Bool.false_eq_true, if_false]
    split_ifs with h1 h2 h3 <;>
      simp_all [reloadCondition, addCondition, Bool.and_eq_true, Bool.not_eq_true',
        Bool.not_eq_true]

/-- C3: `kind()` returns `Restart` if `needs_restart` is non-empty, else
`Reload` if `needs_reload` or `needs_add` is non-empty, else `None`. -/
theorem kind_of_reload_actions (a : ReloadActions) :
    (a.kind = GhciReloadKind.restart ↔ a.needs_restart ≠ []) ∧
    (a.kind = GhciReloadKind.reload ↔
      a.needs_restart = [] ∧ (a.needs_reload ≠ [] ∨ a.needs_add ≠ [])) ∧
    (a.kind = GhciReloadKind.none ↔
      a.needs_restart = [] ∧ a.needs_reload = [] ∧ a.needs_add = []) := by
  rcases a with ⟨nr, nl, na⟩
  cases nr <;> cases nl <;> cases na <;>
    simp [ReloadActions.kind, ReloadActions.needsRestart, ReloadActions.needsAddOrReload]

/-- The classification function an event is filtered through for the
`needs_restart` vector. -/
def restartOf (cfg : ReloadConfig) (e : FileEvent) : Option NormalPath :=
  match classifyEvent cfg e with
  | some ReloadAction.restart => some (normalized cfg e)
  | _ => none

/-- The classification function an event is filtered through for the
`needs_reload` vector. -/
def reloadOf (cfg : ReloadConfig) (e : FileEvent) : Option NormalPath :=
  match classifyEvent cfg e with
  | some ReloadAction.reload => some (normalized cfg e)
  | _ => none

/-- The classification function an event is filtered through for the
`needs_add` vector. -/
def addOf (cfg : ReloadConfig) (e : FileEvent) : Option NormalPath :=
  match classifyEvent cfg e with
  | some ReloadAction.add => some (normalized cfg e)
  | _ => none

theorem gra_needs_restart_eq (cfg : ReloadConfig) (events : List FileEvent) :
    (get_reload_actions cfg events).needs_restart = events.filterMap (restartOf cfg) := by
  induction events with
  | nil => rfl
  | cons e rest ih =>
    rcases h : classifyEvent cfg e with _ | a
    · simp [get_reload_actions, List.filterMap_cons, restartOf, h, ih]
    · rcases a <;> simp [get_reload_actions, List.filterMap_cons, restartOf, h, ih]

theorem gra_needs_reload_eq (cfg : ReloadConfig) (events : List FileEvent) :
    (get_reload_actions cfg events).needs_reload = events.filterMap (reloadOf cfg) := by
  induction events with
  | nil => rfl
  | cons e rest ih =>
    rcases h : classifyEvent cfg e with _ | a
    · simp [get_reload_actions, List.filterMap_cons, reloadOf, h, ih]
    · rcases a <;> simp [get_reload_actions, List.filterMap_cons, reloadOf, h, ih]

theorem gra_needs_add_eq (cfg : ReloadConfig) (events : List FileEvent) :
    (get_reload_actions cfg events).needs_add = events.filterMap (addOf cfg) := by
  induction events with
  | nil => rfl
  | cons e rest ih =>
    rcases h : classifyEvent cfg e with _ | a
    · simp [get_reload_actions, List.filterMap_cons, addOf, h, ih]
    · rcases a <;> simp [get_reload_actions, List.filterMap_cons, addOf, h, ih]

/-- C7: the classification is total and disjoint: the three vectors
together hold at most one entry per event, each vector is exactly the
events classified to it (in order), and every event lands in exactly one
of the four outcomes. -/
theorem reload_classification_total_disjoint (cfg : ReloadConfig) (events : List FileEvent) :
    ((get_reload_actions cfg events).needs_restart.length +
        (get_reload_actions cfg events).needs_reload.length +
        (get_reload_actions cfg events).needs_add.length ≤ events.length) ∧
    (get_reload_actions cfg events).needs_restart = events.filterMap (restartOf cfg) ∧
    (get_reload_actions cfg events).needs_reload = events.filterMap (reloadOf cfg) ∧
    (get_reload_actions cfg events).needs_add = events.filterMap (addOf cfg) ∧
    ∀ e, e ∈ events →
      (classifyEvent cfg e = some ReloadAction.restart ∨
        classifyEvent cfg e = some ReloadAction.reload ∨
        classifyEvent cfg e = some ReloadAction.add ∨
        classifyEvent cfg e = none) ∧
      ¬ (classifyEvent cfg e = some ReloadAction.restart ∧
          classifyEvent cfg e = some ReloadAction.reload) ∧
      ¬ (classifyEvent cfg e = some ReloadAction.restart ∧
          classifyEvent cfg e = some ReloadAction.add) ∧
      ¬ (classifyEvent cfg e = some ReloadAction.reload ∧
          classifyEvent cfg e = some ReloadAction.add) ∧
      ¬ (classifyEvent cfg e = none ∧ (classifyEvent cfg e).isSome = true) := by
  refine ⟨?_, gra_needs_restart_eq cfg events, gra_needs_reload_eq cfg events,
    gra_needs_add_eq cfg events, ?_⟩
  · induction events with
    | nil => simp [get_reload_actions]
    | cons e rest ih =>
      rcases h : classifyEvent cfg e with _ | a
      · simp only [get_reload_actions, h, List.length_cons]
        omega
      · rcases a <;> simp only [get_reload_actions, h, List.length_cons] <;> omega
  · intro e _
    rcases h : classifyEvent cfg e with _ | a
    · simp [h]
    · rcases a <;> simp [h]

/-- Modelled from the spec: `hooks::When` (before/after), part of the
lifecycle-event enumeration; the hooks module is not under `src/`. -/
inductive When
  | before
  | after
deriving DecidableEq, Repr

/-- Modelled from the spec: the closed lifecycle-event enumeration
`{StartupBefore, StartupAfter, ReloadBefore, ReloadAfter, RestartBefore,
RestartAfter, Test}` (spec §3); `hooks::LifecycleEvent` is not under `src/`. -/
inductive LifecycleEvent
  | startup (when : When)
  | reload (when : When)
  | restart (when : When)
  | test
deriving DecidableEq, Repr

/-- Modelled from the spec: the compilation summary outcome (`Ok` or `Err`,
spec §3); `parse::CompilationResult` is not under `src/`.  The module count
does not influence control flow in `mod.rs` and is omitted. -/
inductive CompilationResult
  | ok
  | err
deriving DecidableEq, Repr

/-- An observable step of the session supervisor.  Each constructor stands
for one externally visible call the `Ghci` methods make, in program order. -/
inductive Effect
  | sendKind (kind : GhciReloadKind)
  | clearScreen
  | logRestartList (paths : List NormalPath)
  | restartSession
  | runHooks (event : LifecycleEvent)
  | addModule (path : NormalPath)
  | reloadRepl
  | refreshEvalCommands (paths : List NormalPath)
  | writeErrorLog
  | emitFailure
  | emitSuccess
  | runEvalCommands
  | pruneHandles
  | initStdout
  | initStdin
  | refreshTargets
  | refreshAllEvalCommands
  | stopSession
  | spawnSession
deriving DecidableEq, Repr

/-- `GhciOpts::clear` (mod.rs lines 170–178): clears the screen only when
the `clear` option is set. -/
def clearEffects (clear : Bool) : List Effect :=
  if clear then [Effect.clearScreen] else []

/-- The trace of `Ghci::finish_compilation` (mod.rs lines 773–808): write
the error log, run each event's hooks in order, then read `events[N - 1]`
— which panics when `N = 0`, modelled as `none` — and either emit a
failure line (result `Err`) or emit a success line followed by the eval
commands (when eval is enabled) and the test hook. -/
def finish_compilation_trace (enableEval : Bool) (result : Option CompilationResult)
    (events : List LifecycleEvent) : Option (List Effect) :=
  if events.length = 0 then none
  else
    some ([Effect.writeErrorLog] ++ events.map Effect.runHooks ++
      (match result with
       | some CompilationResult.err => [Effect.emitFailure]
       | _ => [Effect.emitSuccess] ++
           (if enableEval then [Effect.runEvalCommands] else []) ++
           [Effect.runHooks LifecycleEvent.test]))

/-- The lifecycle events `Ghci::reload` passes to `finish_compilation`
(mod.rs line 513): `[LifecycleEvent::Reload(After)]`. -/
def reload_finish_events : List LifecycleEvent :=
  [LifecycleEvent.reload When.after]

/-- The trace of `Ghci::reload` (mod.rs lines 460–521): compute the
actions, send the classification kind on the one-shot channel, then either
restart (clear if configured, log the bulleted restart list, call
`restart`, return) or run the add/reload path and finish with
`finish_compilation` and `prune_command_handles`. -/
def reload_trace (cfg : ReloadConfig) (clear enableEval : Bool)
    (result : Option CompilationResult) (events : List FileEvent) :
    Option (List Effect) :=
  let actions := get_reload_actions cfg events
  if actions.needsRestart then
    some ([Effect.sendKind actions.kind] ++ clearEffects clear ++
      [Effect.logRestartList actions.needs_restart, Effect.restartSession])
  else
    let before :=
      if actions.needsAddOrReload then
        clearEffects clear ++ [Effect.runHooks (LifecycleEvent.reload When.before)]
      else []
    let adds := actions.needs_add.map Effect.addModule
    let reloads :=
      if actions.needs_reload.isEmpty then []
      else [Effect.reloadRepl, Effect.refreshEvalCommands actions.needs_reload]
    match (if actions.needsAddOrReload then
             finish_compilation_trace enableEval result reload_finish_events
           else some []) with
    | none => none
    | some fin =>
      some ([Effect.sendKind actions.kind] ++ before ++ adds ++ reloads ++ fin ++
        [Effect.pruneHandles])

/-- The lifecycle events `Ghci::restart` passes to `initialize`
(mod.rs lines 533–540): `[Startup(After), Restart(After)]`. -/
def restart_initialize_events : List LifecycleEvent :=
  [LifecycleEvent.startup When.after, LifecycleEvent.restart When.after]

/-- The trace of `Ghci::initialize` (mod.rs lines 348–369): await the
first prompt, run start-of-session stdin commands, refresh targets and
eval commands, then `finish_compilation` with the supplied events. -/
def initialize_trace (enableEval : Bool) (result : Option CompilationResult)
    (events : List LifecycleEvent) : Option (List Effect) :=
  (finish_compilation_trace enableEval result events).map
    (fun fin => [Effect.initStdout, Effect.initStdin, Effect.refreshTargets,
      Effect.refreshAllEvalCommands] ++ fin)

/-- The trace of `Ghci::restart` (mod.rs lines 525–543): run the
restart-before hooks, stop the session, spawn a replacement, and call
`initialize` with `[Startup(After), Restart(After)]`. -/
def restart_trace (enableEval : Bool) (result : Option CompilationResult) :
    Option (List Effect) :=
  (initialize_trace enableEval result restart_initialize_events).map
    (fun t => [Effect.runHooks (LifecycleEvent.restart When.before),
      Effect.stopSession, Effect.spawnSession] ++ t)

/-- The destructive steps named by the spec's `kind-reply` ordering
guarantee: clearing the screen, running any hook, restarting, adding a
module, or issuing `:reload`. -/
def Effect.isDestructive : Effect → Bool
  | Effect.clearScreen => true
  | Effect.runHooks _ => true
  | Effect.restartSession => true
  | Effect.addModule _ => true
  | Effect.reloadRepl => true
  | _ => false

/-- A sample Haskell source path for concrete evaluations. -/
def samplePath : NormalPath :=
  { abs := "/w/A.hs", rel := "A.hs", ext := some "hs", fileName := some "A.hs" }

/-- A sample session configuration: no globs configured, `A.hs` targeted. -/
def sampleConfig : ReloadConfig :=
  { restartGlobs := fun _ => GlobMatch.noMatch
    reloadGlobs := fun _ => GlobMatch.noMatch
    isHaskellSourceFile := fun p => p.ext == some "hs"
    relativize := fun p => p
    targets := ⟨["/w/A.hs"]⟩ }

/-- A sample configuration whose restart glob whitelists every path. -/
def sampleRestartConfig : ReloadConfig :=
  { restartGlobs := fun _ => GlobMatch.whitelist
    reloadGlobs := fun _ => GlobMatch.noMatch
    isHaskellSourceFile := fun p => p.ext == some "hs"
    relativize := fun p => p
    targets := ⟨[]⟩ }

/-- C4: `finish_compilation` writes the error log first, runs the supplied
events' hooks in order, then emits only a failure line when the result is
`Err`, and otherwise a success line followed by the eval commands (when
eval is enabled) and the test hook. -/
theorem finish_compilation_order (enableEval : Bool) (result : Option CompilationResult)
    (events : List LifecycleEvent) (h : events ≠ []) :
    finish_compilation_trace enableEval result events =
      some ([Effect.writeErrorLog] ++ events.map Effect.runHooks ++
        (if result = some CompilationResult.err then [Effect.emitFailure]
         else [Effect.emitSuccess] ++
           (if enableEval then [Effect.runEvalCommands] else []) ++
           [Effect.runHooks LifecycleEvent.test])) := by
  have hlen : ¬ events.length = 0 := by simpa using h
  rcases result with _ | r
  · simp [finish_compilation_trace, hlen]
  · rcases r <;> simp [finish_compilation_trace, hlen]

/-- Witness for C4 at a concrete successful compilation with eval enabled. -/
theorem finish_compilation_order_witness :
    finish_compilation_trace true (some CompilationResult.ok) [LifecycleEvent.test] =
      some [Effect.writeErrorLog, Effect.runHooks LifecycleEvent.test,
        Effect.emitSuccess, Effect.runEvalCommands,
        Effect.runHooks LifecycleEvent.test] := by
  have h := finish_compilation_order true (some CompilationResult.ok)
    [LifecycleEvent.test] (by simp)
  simpa using h

theorem gra_needs_restart_ne_nil (cfg : ReloadConfig) (events : List FileEvent)
    (h : ∃ e ∈ events, classifyEvent cfg e = some ReloadAction.restart) :
    (get_reload_actions cfg events).needs_restart ≠ [] := by
  obtain ⟨e, he, hc⟩ := h
  rw [gra_needs_restart_eq]
  intro hnil
  rw [List.filterMap_eq_nil_iff] at hnil
  have := hnil e he
  rw [restartOf, hc] at this
  exact Option.noConfusion this

/-- C2: if any event classifies as restart, `reload` sends the restart
kind, clears the screen when configured, logs the bulleted restart list,
calls `restart`, and returns: no module addition, no `:reload`, no
reload-lifecycle or test hooks, and no `finish_compilation` step appears
in the trace. -/
theorem restart_absorption (cfg : ReloadConfig) (clear enableEval : Bool)
    (result : Option CompilationResult) (events : List FileEvent)
    (h : ∃ e ∈ events, classifyEvent cfg e = some ReloadAction.restart) :
    reload_trace cfg clear enableEval result events =
      some ([Effect.sendKind GhciReloadKind.restart] ++ clearEffects clear ++
        [Effect.logRestartList (get_reload_actions cfg events).needs_restart,
          Effect.restartSession]) ∧
    ∀ t, reload_trace cfg clear enableEval result events = some t →
      (∀ p, Effect.addModule p ∉ t) ∧ Effect.reloadRepl ∉ t ∧
      Effect.runHooks (LifecycleEvent.reload When.before) ∉ t ∧
      Effect.runHooks (LifecycleEvent.reload When.after) ∉ t ∧
      Effect.runHooks LifecycleEvent.test ∉ t ∧
      Effect.writeErrorLog ∉ t ∧ Effect.emitSuccess ∉ t ∧
      Effect.emitFailure ∉ t ∧ Effect.runEvalCommands ∉ t := by
  have hnr := gra_needs_restart_ne_nil cfg events h
  have hb : (get_reload_actions cfg events).needsRestart = true := by
    simp [ReloadActions.needsRestart, hnr]
  have hkind : (get_reload_actions cfg events).kind = GhciReloadKind.restart := by
    simp [ReloadActions.kind, hb]
  have heq : reload_trace cfg clear enableEval result events =
      some ([Effect.sendKind GhciReloadKind.restart] ++ clearEffects clear ++
        [Effect.logRestartList (get_reload_actions cfg events).needs_restart,
          Effect.restartSession]) := by
    rw [reload_trace]
    simp [hb, hkind]
  refine ⟨heq, ?_⟩
  intro t ht
  rw [heq] at ht
  have ht' := Option.some.inj ht
  subst ht'
  cases clear <;> simp [clearEffects]

/-- Witness for C2: a whitelisted restart glob forces a bare restart trace. -/
theorem restart_absorption_witness :
    reload_trace sampleRestartConfig true false none [FileEvent.modify samplePath] =
      some [Effect.sendKind GhciReloadKind.restart, Effect.clearScreen,
        Effect.logRestartList [samplePath], Effect.restartSession] := by
  have h := (restart_absorption sampleRestartConfig true false none
    [FileEvent.modify samplePath]
    ⟨FileEvent.modify samplePath, by simp, by decide⟩).1
  refine h.trans ?_
  decide

theorem reload_trace_some (cfg : ReloadConfig) (clear enableEval : Bool)
    (result : Option CompilationResult) (events : List FileEvent) :
    ∃ rest, reload_trace cfg clear enableEval result events =
      some (Effect.sendKind (get_reload_actions cfg events).kind :: rest) := by
  rw [reload_trace]
  cases hb : (get_reload_actions cfg events).needsRestart with
  | true =>
    simp only [if_true]
    exact ⟨_, rfl⟩
  | false =>
    simp only [Bool.false_eq_true, if_false]
    cases hadd : (get_reload_actions cfg events).needsAddOrReload with
    | true =>
      simp only [if_true, finish_compilation_trace, reload_finish_events]
      simp only [List.length_cons, List.length_nil, Nat.zero_add]
      simp only [show ¬ (1 = 0) by omega, if_false]
      exact ⟨_, rfl⟩
    | false =>
      simp only [Bool.false_eq_true, if_false]
      exact ⟨_, rfl⟩

/-- C5: in every execution of `reload`, the classification kind is sent on
the one-shot channel first, before any destructive step (clearing the
screen, running a hook, restarting, adding a module, or issuing `:reload`). -/
theorem kind_sent_before_destructive_steps (cfg : ReloadConfig)
    (clear enableEval : Bool) (result : Option CompilationResult)
    (events : List FileEvent) (t : List Effect)
    (h : reload_trace cfg clear enableEval result events = some t) :
    t.head? = some (Effect.sendKind (get_reload_actions cfg events).kind) ∧
    ∀ i eff, t.get? i = some eff → eff.isDestructive = true →
      ∃ j, j < i ∧
        t.get? j = some (Effect.sendKind (get_reload_actions cfg events).kind) := by
  obtain ⟨rest, hrest⟩ := reload_trace_some cfg clear enableEval result events
  rw [h] at hrest
  have ht := Option.some.inj hrest
  subst ht
  refine ⟨rfl, ?_⟩
  intro i eff hget hdest
  cases i with
  | zero =>
    have : Effect.sendKind (get_reload_actions cfg events).kind = eff :=
      Option.some.inj hget
    rw [← this] at hdest
    simp [Effect.isDestructive] at hdest
  | succ n =>
    exact ⟨0, Nat.succ_pos n, rfl⟩

/-- Witness for C5: the kind heads the trace of an empty reload call. -/
theorem kind_sent_before_destructive_steps_witness :
    List.head? [Effect.sendKind GhciReloadKind.none, Effect.pruneHandles] =
      some (Effect.sendKind (get_reload_actions sampleConfig ([] : List FileEvent)).kind) :=
  (kind_sent_before_destructive_steps sampleConfig false false none []
    [Effect.sendKind GhciReloadKind.none, Effect.pruneHandles] (by decide)).1

/-- C9: `finish_compilation` panics on an empty lifecycle-event array
(modelled as `none`), succeeds on every non-empty one, and every caller in
this file — `reload` directly, and `restart` through `initialize` — passes
at least one event, so its traces always exist. -/
theorem finish_compilation_requires_event :
    (∀ (enableEval : Bool) (result : Option CompilationResult),
      finish_compilation_trace enableEval result [] = none) ∧
    (∀ (enableEval : Bool) (result : Option CompilationResult)
        (events : List LifecycleEvent), events ≠ [] →
      (finish_compilation_trace enableEval result events).isSome = true) ∧
    reload_finish_events ≠ [] ∧
    restart_initialize_events ≠ [] ∧
    (∀ (enableEval : Bool) (result : Option CompilationResult),
      (restart_trace enableEval result).isSome = true) ∧
    (∀ (cfg : ReloadConfig) (clear enableEval : Bool)
        (result : Option CompilationResult) (events : List FileEvent),
      (reload_trace cfg clear enableEval result events).isSome = true) := by
  refine ⟨?_, ?_, ?_, ?_, ?_, ?_⟩
  · intro enableEval result
    simp [finish_compilation_trace]
  · intro enableEval result events h
    have hlen : ¬ events.length = 0 := by simpa using h
    simp [finish_compilation_trace, hlen]
  · simp [reload_finish_events]
  · simp [restart_initialize_events]
  · intro enableEval result
    simp [restart_trace, initialize_trace, finish_compilation_trace,
      restart_initialize_events]
  · intro cfg clear enableEval result events
    obtain ⟨rest, hrest⟩ := reload_trace_some cfg clear enableEval result events
    simp [hrest]

/-- Witness for C9 at the singleton test event. -/
theorem finish_compilation_requires_event_witness :
    (finish_compilation_trace false none [LifecycleEvent.test]).isSome = true :=
  finish_compilation_requires_event.2.1 false none [LifecycleEvent.test] (by simp)

/-- The session state `add_module` touches: the target set, the eval-command
map (keyed by absolute path), and the compilation log (diagnostics parsed
from REPL output). -/
structure SessionState where
  targets : ModuleSet
  eval_commands : List (String × List String)
  log : List String
deriving DecidableEq, Repr

/-- Map insertion for the eval-command map (`BTreeMap::insert`): replaces
any entry with the same key. -/
def insertEvalCommands (m : List (String × List String)) (k : String)
    (v : List String) : List (String × List String) :=
  m.filter (fun kv => kv.1 != k) ++ [(k, v)]

/-- `Ghci::add_module` (mod.rs lines 660–681): a no-op when the path's
absolute form is already in the target set; otherwise send `:add` (the
REPL's response, parsed into the log, is the abstract `replOutput` input),
insert the path into the target set, and — when eval is enabled — refresh
the eval commands for the path (the file's parsed commands are the
abstract `parseEvalCommands` input). -/
def add_module (enableEval : Bool) (parseEvalCommands : String → List String)
    (replOutput : List String) (st : SessionState) (p : NormalPath) :
    SessionState × List Effect :=
  if st.targets.contains_source_path p.abs then (st, [])
  else
    let afterSend : SessionState := { st with log := st.log ++ replOutput }
    let afterInsert : SessionState :=
      { afterSend with targets := afterSend.targets.insert_source_path p.abs }
    let afterRefresh : SessionState :=
      if enableEval then
        { afterInsert with
          eval_commands := insertEvalCommands afterInsert.eval_commands p.abs
            (parseEvalCommands p.abs) }
      else afterInsert
    (afterRefresh, [Effect.addModule p])

/-- C6: calling `add_module` on a path already in the target set is a
no-op: no `:add` is sent, and the target set, eval-command map, and
compilation log are unchanged. -/
theorem add_module_idempotent (enableEval : Bool)
    (parseEvalCommands : String → List String) (replOutput : List String)
    (st : SessionState) (p : NormalPath)
    (h : st.targets.contains_source_path p.abs = true) :
    add_module enableEval parseEvalCommands replOutput st p = (st, []) := by
  simp [add_module, h]

/-- A sample session state that already targets `samplePath`. -/
def sampleState : SessionState :=
  { targets := ⟨["/w/A.hs"]⟩, eval_commands := [], log := [] }

/-- Witness for C6: re-adding the targeted `A.hs` changes nothing. -/
theorem add_module_idempotent_witness :
    add_module true (fun _ => []) ["output"] sampleState samplePath =
      (sampleState, []) :=
  add_module_idempotent true (fun _ => []) ["output"] sampleState samplePath
    (by decide)

/-- The prompt sentinel (mod.rs line 87). -/
def PROMPT : String := "###~GHCIWATCH-PROMPT~###"

/-- The pattern set built in `Ghci::new` (mod.rs line 290),
`AhoCorasick::from_anchored_patterns([PROMPT])`, modelled as its pattern
list. -/
def prompt_patterns : List String := [PROMPT]

/-- Modelled from the spec: the prompt-setting directive the stdin writer
sends, `:set prompt "<sentinel>\n"` (spec §6); the stdin module is not
under `src/`.  Parameterized by the sentinel it writes. -/
def set_prompt_directive (sentinel : String) : String :=
  ":set prompt \"" ++ sentinel ++ "\\n\""

/-- Modelled from the spec: the directive actually written uses the same
compile-time constant `PROMPT` (spec §6: "use the same value for both
writing and matching"). -/
def written_prompt_directive : String := set_prompt_directive PROMPT

/-- C8: the prompt sentinel is the compile-time constant `PROMPT`, the
pattern set matched against stdout is built from exactly that constant,
and the directive written to the REPL embeds the same value, so the value
matched equals the value written. -/
theorem prompt_constant_consistent :
    prompt_patterns = [PROMPT] ∧
    written_prompt_directive = set_prompt_directive PROMPT ∧
    PROMPT = "###~GHCIWATCH-PROMPT~###" :=
  ⟨rfl, rfl, rfl⟩

/-- The launch command (`crate::clonable_command::ClonableCommand`),
modelled as a program plus arguments. -/
structure ClonableCommand where
  program : String
  args : List String
deriving DecidableEq, Repr

/-- `ClonableCommand::new`. -/
def ClonableCommand.new (program : String) : ClonableCommand :=
  ⟨program, []⟩

/-- `ClonableCommand::arg`. -/
def ClonableCommand.arg (c : ClonableCommand) (a : String) : ClonableCommand :=
  ⟨c.program, c.args ++ [a]⟩

/-- Where REPL output is mirrored (`GhciWriter`): the parent's stdout or
stderr, or the TUI duplex stream. -/
inductive GhciWriter
  | stdout
  | stderr
  | duplexStream
deriving DecidableEq, Repr

/-- The parsed CLI options `GhciOpts::from_cli` reads (`crate::cli::Opts`).
Modelled from the spec: the CLI collaborator is not under `src/`; its
glob lists arrive here as the already-compiled matchers the spec's §6
contract describes, so `watch.restart_globs()` and `watch.reload_globs()`
are total. -/
structure Opts where
  file : Option NormalPath
  command : Option ClonableCommand
  tui : Bool
  error_file : Option String
  enable_eval : Bool
  no_interrupt_reloads : Bool
  clear : Bool
  restart_globs : NormalPath → GlobMatch
  reload_globs : NormalPath → GlobMatch

/-- Options for constructing a session (`GhciOpts`, mod.rs lines 96–117);
the hook options carry no logic used by the claims and are omitted. -/
structure GhciOpts where
  command : ClonableCommand
  error_path : Option String
  enable_eval : Bool
  restart_globs : NormalPath → GlobMatch
  reload_globs : NormalPath → GlobMatch
  no_interrupt_reloads : Bool
  stdout_writer : GhciWriter
  stderr_writer : GhciWriter
  clear : Bool

/-- The launch-command match of `GhciOpts::from_cli` (mod.rs lines
130–135): `ghci` with the file, the given command, or the default
`cabal repl`; both-set is `unreachable!`, modelled as `none`. -/
def launch_command (opts : Opts) : Option ClonableCommand :=
  match opts.file, opts.command with
  | some file, none => some ((ClonableCommand.new "ghci").arg file.rel)
  | none, some command => some command
  | none, none => some ((ClonableCommand.new "cabal").arg "repl")
  | some _, some _ => none

/-- The record `GhciOpts::from_cli` builds around the launch command
(mod.rs lines 137–167): TUI mode routes both writers to the duplex
stream and hands back its reader. -/
def mk_ghci_opts (opts : Opts) (command : ClonableCommand) : GhciOpts :=
  { command := command
    error_path := opts.error_file
    enable_eval := opts.enable_eval
    restart_globs := opts.restart_globs
    reload_globs := opts.reload_globs
    no_interrupt_reloads := opts.no_interrupt_reloads
    stdout_writer := if opts.tui then GhciWriter.duplexStream else GhciWriter.stdout
    stderr_writer := if opts.tui then GhciWriter.duplexStream else GhciWriter.stderr
    clear := opts.clear }

/-- `GhciOpts::from_cli` (mod.rs lines 127–168): `none` models the
`unreachable!` panic; the second component models whether a TUI reader
was returned. -/
def GhciOpts.from_cli (opts : Opts) : Option (GhciOpts × Bool) :=
  (launch_command opts).map (fun command => (mk_ghci_opts opts command, opts.tui))

/-- C10: `from_cli` panics (returns `none`) exactly when both an explicit
file and an explicit command are set; with at most one of the two set it
succeeds, choosing `ghci` with the file, the given command, or the
default `cabal repl`. -/
theorem from_cli_launch_command (opts : Opts) :
    (∀ f c, opts.file = some f → opts.command = some c →
      GhciOpts.from_cli opts = none) ∧
    (∀ f, opts.file = some f → opts.command = none →
      GhciOpts.from_cli opts =
        some (mk_ghci_opts opts ((ClonableCommand.new "ghci").arg f.rel), opts.tui)) ∧
    (∀ c, opts.file = none → opts.command = some c →
      GhciOpts.from_cli opts = some (mk_ghci_opts opts c, opts.tui)) ∧
    (opts.file = none → opts.command = none →
      GhciOpts.from_cli opts =
        some (mk_ghci_opts opts ((ClonableCommand.new "cabal").arg "repl"), opts.tui)) := by
  refine ⟨?_, ?_, ?_, ?_⟩
  · intro f c hf hc
    simp [GhciOpts.from_cli, launch_command, hf, hc]
  · intro f hf hc
    simp [GhciOpts.from_cli, launch_command, hf, hc]
  · intro c hf hc
    simp [GhciOpts.from_cli, launch_command, hf, hc]
  · intro hf hc
    simp [GhciOpts.from_cli, launch_command, hf, hc]

/-- Sample parsed CLI options with neither a file nor a command. -/
def sampleOpts : Opts :=
  { file := none
    command := none
    tui := false
    error_file := none
    enable_eval := false
    no_interrupt_reloads := false
    clear := false
    restart_globs := fun _ => GlobMatch.noMatch
    reload_globs := fun _ => GlobMatch.noMatch }

/-- Witness for C10: the default invocation is `cabal repl`. -/
theorem from_cli_launch_command_witness :
    GhciOpts.from_cli sampleOpts =
      some (mk_ghci_opts sampleOpts ((ClonableCommand.new "cabal").arg "repl"),
        false) :=
  (from_cli_launch_command sampleOpts).2.2.2 rfl rfl

end Ghciwatch
